import Mathlib

/-!
Verification development for the re-search repository.

The file gives a shallow embedding of the parts of the code that the
specification claims talk about, and proves or refutes each claim:

* the SQL helper functions of the Supabase migrations
  (`generate_opportunity_content_hash`, `generate_similarity_group_id`,
  and the Step-4 initial-tracking update), with concrete executable
  SHA-256 and MD5 so the hash values can be computed inside Lean;
* the frontend `ApiService` (`transformOpportunity`, `getOpportunities`,
  `llmSearch`) from `frontend/src/services/api.ts`;
* the search-mode pagination and client-side filtering of
  `frontend/src/components/SimpleResearchOpportunities.tsx`.

SQL `TEXT` values and JavaScript strings that undergo character-level
processing are modelled as `List Char`; nullable (`NULL` / `undefined`)
values as `Option`.  Machine words are `Nat` with explicit reduction
modulo `2 ^ 32`.
-/

set_option maxRecDepth 100000

/-! ## Bytes, hex and UTF-8 -/

/-- Lowercase hexadecimal digit for a value below 16 (as produced by
PostgreSQL `encode(..., 'hex')`). -/
def hexDigit (n : Nat) : Char :=
  if n < 10 then Char.ofNat (48 + n) else Char.ofNat (87 + n)

/-- Lowercase hexadecimal encoding of a byte list. -/
def bytesToHex (bs : List Nat) : List Char :=
  (bs.map (fun b => [hexDigit (b / 16), hexDigit (b % 16)])).flatten

/-- UTF-8 encoding of a single code point. -/
def utf8Char (c : Char) : List Nat :=
  let n := c.toNat
  if n < 128 then [n]
  else if n < 2048 then [192 + n / 64, 128 + n % 64]
  else if n < 65536 then [224 + n / 4096, 128 + (n / 64) % 64, 128 + n % 64]
  else [240 + n / 262144, 128 + (n / 4096) % 64, 128 + (n / 64) % 64, 128 + n % 64]

/-- UTF-8 encoding of a character list as a byte list (the PostgreSQL
`::bytea` cast of a `TEXT` value under the UTF-8 server encoding). -/
def utf8Bytes (l : List Char) : List Nat :=
  (l.map utf8Char).flatten

/-- Big-endian byte representation of `n` on `k` bytes. -/
def beBytes : Nat → Nat → List Nat
  | 0, _ => []
  | k + 1, n => beBytes k (n / 256) ++ [n % 256]

/-- Little-endian byte representation of `n` on `k` bytes. -/
def leBytes : Nat → Nat → List Nat
  | 0, _ => []
  | k + 1, n => n % 256 :: leBytes k (n / 256)

/-- Group a byte list into big-endian 32-bit words. -/
def wordsBE : List Nat → List Nat
  | b0 :: b1 :: b2 :: b3 :: rest => (((b0 * 256 + b1) * 256 + b2) * 256 + b3) :: wordsBE rest
  | _ => []

/-- Group a byte list into little-endian 32-bit words. -/
def wordsLE : List Nat → List Nat
  | b0 :: b1 :: b2 :: b3 :: rest => (((b3 * 256 + b2) * 256 + b1) * 256 + b0) :: wordsLE rest
  | _ => []

/-- Split a word list into blocks of 16 words.  The fuel argument is the
length of the remaining list, which bounds the number of blocks; the
recursion consumes at least one element per step, so the fuel never runs
out. -/
def blocksGo : Nat → List Nat → List (List Nat)
  | _, [] => []
  | 0, _ :: _ => []
  | fuel + 1, w :: rest => ((w :: rest).take 16) :: blocksGo fuel ((w :: rest).drop 16)

/-- Split a word list into blocks of 16 words. -/
def blocks16 (l : List Nat) : List (List Nat) := blocksGo l.length l

/-- Merkle–Damgård padding shared by SHA-256 and MD5: append byte `0x80`,
zero bytes up to 56 mod 64, then the 8-byte bit length (`lenBytes`
chooses the endianness of the length field). -/
def padMsg (lenBytes : Nat → List Nat) (msg : List Nat) : List Nat :=
  msg ++ 128 :: (List.replicate ((119 - msg.length % 64) % 64) 0 ++ lenBytes (msg.length * 8))

/-- Rotate a 32-bit value right by `n` bits. -/
def rotr32 (n x : Nat) : Nat :=
  ((x >>> n) ||| (x <<< (32 - n))) % 4294967296

/-- Rotate a 32-bit value left by `n` bits. -/
def rotl32 (n x : Nat) : Nat :=
  ((x <<< n) ||| (x >>> (32 - n))) % 4294967296

/-! ## SHA-256 -/

/-- SHA-256 round constants. -/
def sha256K : List Nat :=
  [1116352408, 1899447441, 3049323471, 3921009573, 961987163, 1508970993,
   2453635748, 2870763221, 3624381080, 310598401, 607225278, 1426881987,
   1925078388, 2162078206, 2614888103, 3248222580, 3835390401, 4022224774,
   264347078, 604807628, 770255983, 1249150122, 1555081692, 1996064986,
   2554220882, 2821834349, 2952996808, 3210313671, 3336571891, 3584528711,
   113926993, 338241895, 666307205, 773529912, 1294757372, 1396182291,
   1695183700, 1986661051, 2177026350, 2456956037, 2730485921, 2820302411,
   3259730800, 3345764771, 3516065817, 3600352804, 4094571909, 275423344,
   430227734, 506948616, 659060556, 883997877, 958139571, 1322822218,
   1537002063, 1747873779, 1955562222, 2024104815, 2227730452, 2361852424,
   2428436474, 2756734187, 3204031479, 3329325298]

/-- SHA-256 working state (eight 32-bit words). -/
structure Sha8 where
  a : Nat
  b : Nat
  c : Nat
  d : Nat
  e : Nat
  f : Nat
  g : Nat
  h : Nat
deriving DecidableEq

/-- SHA-256 initial hash value. -/
def sha256H0 : Sha8 :=
  ⟨1779033703, 3144134277, 1013904242, 2773480762, 1359893119, 2600822924, 528734635, 1541459225⟩

/-- Extend a 16-word block towards the 64-word SHA-256 message schedule,
appending one word per fuel step. -/
def shaExtend : Nat → List Nat → List Nat
  | 0, w => w
  | k + 1, w =>
    let n := w.length
    let s0 := w.getD (n - 15) 0
    let s1 := w.getD (n - 2) 0
    let t := (rotr32 17 s1 ^^^ rotr32 19 s1 ^^^ (s1 >>> 10)) + w.getD (n - 7) 0 +
      (rotr32 7 s0 ^^^ rotr32 18 s0 ^^^ (s0 >>> 3)) + w.getD (n - 16) 0
    shaExtend k (w ++ [t % 4294967296])

/-- One SHA-256 compression round; `kw` pairs the round constant with the
scheduled message word. -/
def shaRound (st : Sha8) (kw : Nat × Nat) : Sha8 :=
  let s1 := rotr32 6 st.e ^^^ rotr32 11 st.e ^^^ rotr32 25 st.e
  let ch := (st.e &&& st.f) ^^^ ((4294967295 - st.e) &&& st.g)
  let t1 := (st.h + s1 + ch + kw.1 + kw.2) % 4294967296
  let s0 := rotr32 2 st.a ^^^ rotr32 13 st.a ^^^ rotr32 22 st.a
  let mj := (st.a &&& st.b) ^^^ (st.a &&& st.c) ^^^ (st.b &&& st.c)
  let t2 := (s0 + mj) % 4294967296
  ⟨(t1 + t2) % 4294967296, st.a, st.b, st.c, (st.d + t1) % 4294967296, st.e, st.f, st.g⟩

/-- SHA-256 compression of one 16-word block. -/
def shaBlock (st : Sha8) (block : List Nat) : Sha8 :=
  let w := shaExtend 48 block
  let r := (sha256K.zip w).foldl shaRound st
  ⟨(st.a + r.a) % 4294967296, (st.b + r.b) % 4294967296, (st.c + r.c) % 4294967296,
   (st.d + r.d) % 4294967296, (st.e + r.e) % 4294967296, (st.f + r.f) % 4294967296,
   (st.g + r.g) % 4294967296, (st.h + r.h) % 4294967296⟩

/-- SHA-256 digest of a byte list, as 32 bytes. -/
def sha256Bytes (msg : List Nat) : List Nat :=
  let st := (blocks16 (wordsBE (padMsg (beBytes 8) msg))).foldl shaBlock sha256H0
  (([st.a, st.b, st.c, st.d, st.e, st.f, st.g, st.h]).map (beBytes 4)).flatten

/-- Lowercase-hex SHA-256 digest of a character list, UTF-8 encoded:
the model of `encode(sha256(text::bytea), 'hex')`. -/
def sha256Hex (l : List Char) : List Char := bytesToHex (sha256Bytes (utf8Bytes l))

/-! ## MD5 -/

/-- MD5 per-round additive constants. -/
def md5K : List Nat :=
  [3614090360, 3905402710, 606105819, 3250441966, 4118548399, 1200080426,
   2821735955, 4249261313, 1770035416, 2336552879, 4294925233, 2304563134,
   1804603682, 4254626195, 2792965006, 1236535329, 4129170786, 3225465664,
   643717713, 3921069994, 3593408605, 38016083, 3634488961, 3889429448,
   568446438, 3275163606, 4107603335, 1163531501, 2850285829, 4243563512,
   1735328473, 2368359562, 4294588738, 2272392833, 1839030562, 4259657740,
   2763975236, 1272893353, 4139469664, 3200236656, 681279174, 3936430074,
   3572445317, 76029189, 3654602809, 3873151461, 530742520, 3299628645,
   4096336452, 1126891415, 2878612391, 4237533241, 1700485571, 2399980690,
   4293915773, 2240044497, 1873313359, 4264355552, 2734768916, 1309151649,
   4149444226, 3174756917, 718787259, 3951481745]

/-- MD5 per-round left-rotation amounts. -/
def md5S : List Nat :=
  [7, 12, 17, 22, 7, 12, 17, 22, 7, 12, 17, 22, 7, 12, 17, 22,
   5, 9, 14, 20, 5, 9, 14, 20, 5, 9, 14, 20, 5, 9, 14, 20,
   4, 11, 16, 23, 4, 11, 16, 23, 4, 11, 16, 23, 4, 11, 16, 23,
   6, 10, 15, 21, 6, 10, 15, 21, 6, 10, 15, 21, 6, 10, 15, 21]

/-- MD5 working state (four 32-bit words). -/
structure Md4 where
  a : Nat
  b : Nat
  c : Nat
  d : Nat
deriving DecidableEq

/-- MD5 initial state. -/
def md5H0 : Md4 := ⟨1732584193, 4023233417, 2562383102, 271733878⟩

/-- One MD5 round: `i` is the round index and `m` the 16 block words. -/
def md5Round (m : List Nat) (st : Md4) (i : Nat) : Md4 :=
  let notW := fun x => 4294967295 - x
  let fg : Nat × Nat :=
    if i < 16 then ((st.b &&& st.c) ||| (notW st.b &&& st.d), i)
    else if i < 32 then ((st.d &&& st.b) ||| (notW st.d &&& st.c), (5 * i + 1) % 16)
    else if i < 48 then (st.b ^^^ st.c ^^^ st.d, (3 * i + 5) % 16)
    else (st.c ^^^ (st.b ||| notW st.d), (7 * i) % 16)
  let t := (fg.1 + st.a + md5K.getD i 0 + m.getD fg.2 0) % 4294967296
  ⟨st.d, (st.b + rotl32 (md5S.getD i 0) t) % 4294967296, st.b, st.c⟩

/-- MD5 compression of one 16-word block. -/
def md5Block (st : Md4) (block : List Nat) : Md4 :=
  let r := (List.range 64).foldl (md5Round block) st
  ⟨(st.a + r.a) % 4294967296, (st.b + r.b) % 4294967296,
   (st.c + r.c) % 4294967296, (st.d + r.d) % 4294967296⟩

/-- MD5 digest of a byte list, as 16 bytes. -/
def md5Bytes (msg : List Nat) : List Nat :=
  let st := (blocks16 (wordsLE (padMsg (leBytes 8) msg))).foldl md5Block md5H0
  (([st.a, st.b, st.c, st.d]).map (leBytes 4)).flatten

/-- Lowercase-hex MD5 digest of a character list, UTF-8 encoded: the model
of `encode(digest(text, 'md5'), 'hex')`. -/
def md5Hex (l : List Char) : List Char := bytesToHex (md5Bytes (utf8Bytes l))

/-! ## SQL text operations

SQL `TEXT` is modelled as `List Char`, a nullable `TEXT` argument as
`Option (List Char)`. -/

/-- Test for the space character, the only character removed by the
one-argument form of SQL `TRIM`. -/
def isSp (c : Char) : Bool := c == ' '

/-- SQL `LOWER` under ASCII semantics: letters `A`–`Z` are mapped to
lowercase, all other characters kept. -/
def sqlLowerChar (c : Char) : Char :=
  if 65 ≤ c.toNat ∧ c.toNat ≤ 90 then Char.ofNat (c.toNat + 32) else c

/-- SQL `LOWER` on a text value. -/
def sqlLower (l : List Char) : List Char := l.map sqlLowerChar

/-- SQL `TRIM`: remove spaces from both ends. -/
def sqlTrim (l : List Char) : List Char :=
  ((l.dropWhile isSp).reverse.dropWhile isSp).reverse

/-- SQL `LEFT(l, n)` for a nonnegative count: the first `n` characters. -/
def sqlLeft (n : Nat) (l : List Char) : List Char := l.take n

/-- SQL `COALESCE(x, '')`. -/
def textOrEmpty (x : Option (List Char)) : List Char := x.getD []

/-! ## The SQL migration helper functions -/

/-- Function `generate_opportunity_content_hash` from
`migrations/supabase_complete_fresh_migration.sql` (the same body appears
in the earlier tracking migration): the lowercase-hex SHA-256 of
`CONCAT(LOWER(TRIM(COALESCE(title,''))), '|',
LOWER(TRIM(LEFT(COALESCE(description,''), 500))), '|',
LOWER(TRIM(COALESCE(department,''))), '|', COALESCE(source_url,''), '|',
TRIM(COALESCE(deadline,'')), '|', TRIM(COALESCE(funding_amount,'')))`. -/
def generate_opportunity_content_hash
    (p_title p_description p_department p_source_url p_deadline p_funding_amount :
      Option (List Char)) : List Char :=
  sha256Hex
    (sqlLower (sqlTrim (textOrEmpty p_title)) ++ '|' ::
      (sqlLower (sqlTrim (sqlLeft 500 (textOrEmpty p_description))) ++ '|' ::
        (sqlLower (sqlTrim (textOrEmpty p_department)) ++ '|' ::
          (textOrEmpty p_source_url ++ '|' ::
            (sqlTrim (textOrEmpty p_deadline) ++ '|' ::
              sqlTrim (textOrEmpty p_funding_amount))))))

/-- Match of the POSIX regular expression `^https?://([^/]+)` together with
its first capture group: `some d` when the text starts with `http://` or
`https://` followed by at least one character other than `/`, where `d`
is the maximal such run (the greedy `[^/]+`); `none` when the pattern
does not match. -/
def extractDomain (u : List Char) : Option (List Char) :=
  let rest? : Option (List Char) :=
    if u.take 7 = ['h', 't', 't', 'p', ':', '/', '/'] then some (u.drop 7)
    else if u.take 8 = ['h', 't', 't', 'p', 's', ':', '/', '/'] then some (u.drop 8)
    else none
  match rest? with
  | some rest =>
    let d := rest.takeWhile (fun c => !(c == '/'))
    if d.isEmpty then none else some d
  | none => none

/-- The PostgreSQL cast `::VARCHAR(n)`, which silently truncates an
over-length value to `n` characters. -/
def varcharCast (n : Nat) (l : List Char) : List Char := l.take n

/-- Function `generate_similarity_group_id` from
`migrations/supabase_complete_fresh_migration.sql`: the first 16
characters (by `LEFT(..., 16)`) of the lowercase-hex MD5 of
`CONCAT(LEFT(LOWER(TRIM(COALESCE(title,''))), 100), '|',
LOWER(TRIM(COALESCE(department,''))), '|', COALESCE(domain,''))` where
`domain` is the lowercased captured domain when the source URL matches
`^https?://([^/]+)` and `LEFT(COALESCE(source_url,''), 50)` otherwise
(a `NULL` source URL makes the match condition not-true, selecting the
`ELSE` branch). -/
def generate_similarity_group_id
    (p_title p_department p_source_url : Option (List Char)) : List Char :=
  let domain : Option (List Char) :=
    match p_source_url with
    | some u =>
      match extractDomain u with
      | some d => some (sqlLower d)
      | none => some (sqlLeft 50 u)
    | none => some (sqlLeft 50 (textOrEmpty none))
  sqlLeft 16
    (md5Hex
      (sqlLeft 100 (sqlLower (sqlTrim (textOrEmpty p_title))) ++ '|' ::
        (sqlLower (sqlTrim (textOrEmpty p_department)) ++ '|' ::
          textOrEmpty domain)))

/-- Function `generate_similarity_group_id` from the earlier tracking
migration (`add_opportunity_tracking` script): identical except that the
`ELSE` branch is `LEFT(p_source_url, 50)` (which is `NULL` for a `NULL`
URL, later defused by `COALESCE(domain, '')`) and the result is cast to
`VARCHAR(16)` instead of using `LEFT(..., 16)`. -/
def generate_similarity_group_id_tracking
    (p_title p_department p_source_url : Option (List Char)) : List Char :=
  let domain : Option (List Char) :=
    match p_source_url with
    | some u =>
      match extractDomain u with
      | some d => some (sqlLower d)
      | none => some (sqlLeft 50 u)
    | none => none
  varcharCast 16
    (md5Hex
      (sqlLeft 100 (sqlLower (sqlTrim (textOrEmpty p_title))) ++ '|' ::
        (sqlLower (sqlTrim (textOrEmpty p_department)) ++ '|' ::
          textOrEmpty domain)))

/-- Normalisation of the six hash inputs exactly as the specification
claim words it: title and department lowercased and trimmed, description
truncated to its first 500 characters then lowercased and trimmed,
source URL verbatim, deadline and funding amount trimmed, `NULL` treated
as the empty string; the fields are then joined with `'|'` and hashed
with SHA-256, encoded as lowercase hex. -/
def contentHashAsSpecified
    (title description department source_url deadline funding_amount :
      Option (List Char)) : List Char :=
  sha256Hex
    (List.intercalate ['|']
      [sqlTrim (sqlLower (textOrEmpty title)),
       sqlTrim (sqlLower (sqlLeft 500 (textOrEmpty description))),
       sqlTrim (sqlLower (textOrEmpty department)),
       textOrEmpty source_url,
       sqlTrim (textOrEmpty deadline),
       sqlTrim (textOrEmpty funding_amount)])

/-! ## Step 4 of the fresh migration: initial tracking data

Model of the `DO $$ ... $$` block "Update existing opportunities with
initial tracking data".  A table row carries the columns the block reads
or writes; timestamps are abstract `Nat` instants and `CURRENT_TIMESTAMP`
is the parameter `now`. -/

/-- Row of `public.opportunities` restricted to the columns used by the
Step-4 update. -/
structure OppRow where
  id : Nat
  scraped_at : Option Nat
  is_active : Option Bool
  first_seen_at : Option Nat
  last_seen_at : Option Nat
  last_updated_at : Option Nat
  status : Option String
  consecutive_missing_count : Option Int
deriving DecidableEq

/-- The `WHERE` condition selecting rows that need initial tracking data:
`first_seen_at IS NULL OR last_seen_at IS NULL OR status IS NULL`. -/
def needsInit (r : OppRow) : Bool :=
  r.first_seen_at.isNone || r.last_seen_at.isNone || r.status.isNone

/-- SQL `COALESCE(a, b, now)` on timestamps. -/
def coalesceTs (a b : Option Nat) (now : Nat) : Nat :=
  match a with
  | some x => x
  | none =>
    match b with
    | some y => y
    | none => now

/-- The `CASE WHEN is_active = true THEN 'active' ELSE 'removed' END`
expression; a `NULL` `is_active` is not equal to `true`, so it selects
`'removed'`. -/
def initStatus (r : OppRow) : String :=
  if r.is_active = some true then "active" else "removed"

/-- The `SET` clause of the Step-4 `UPDATE` applied to one row. -/
def initRow (now : Nat) (r : OppRow) : OppRow :=
  { r with
    first_seen_at := some (coalesceTs r.first_seen_at r.scraped_at now),
    last_seen_at := some (coalesceTs r.last_seen_at r.scraped_at now),
    last_updated_at := some (coalesceTs r.last_updated_at r.scraped_at now),
    status := some (r.status.getD (initStatus r)),
    consecutive_missing_count := some (r.consecutive_missing_count.getD 0) }

/-- Insert a row into a list sorted by ascending `id`. -/
def insertById (r : OppRow) : List OppRow → List OppRow
  | [] => [r]
  | x :: xs => if r.id ≤ x.id then r :: x :: xs else x :: insertById r xs

/-- Sort rows by ascending `id`, the model of `ORDER BY id`. -/
def sortById : List OppRow → List OppRow
  | [] => []
  | x :: xs => insertById x (sortById xs)

/-- The id subquery of one batch: `SELECT id FROM opportunities WHERE
<needsInit> ORDER BY id LIMIT 100 OFFSET processed`. -/
def selectBatchIds (table : List OppRow) (processed : Nat) : List Nat :=
  (((sortById (table.filter needsInit)).drop processed).take 100).map OppRow.id

/-- One iteration of the Step-4 loop body: `UPDATE ... WHERE id IN
(<batch subquery>)`, the subquery evaluated against the current table
state. -/
def applyBatch (now : Nat) (table : List OppRow) (processed : Nat) : List OppRow :=
  let ids := selectBatchIds table processed
  table.map (fun r => if ids.contains r.id then initRow now r else r)

/-- The `WHILE processed < rows_to_update` loop.  Each iteration adds the
batch size 100 to `processed`, so the loop runs at most
`ceil(rows_to_update / 100) ≤ rows_to_update` times; a fuel of
`rows_to_update` therefore never runs out and the fuelled recursion is
exactly the SQL loop. -/
def step4Go (now r2u : Nat) : Nat → List OppRow → Nat → List OppRow
  | 0, table, _ => table
  | fuel + 1, table, processed =>
    if processed < r2u then
      step4Go now r2u fuel (applyBatch now table processed) (processed + 100)
    else table

/-- The whole Step-4 block: count the rows needing initial tracking data
(`rows_to_update`, computed once) and run the batched update loop with
`processed` starting at 0. -/
def migrationStep4 (now : Nat) (table : List OppRow) : List OppRow :=
  let r2u := (table.filter needsInit).length
  step4Go now r2u r2u table 0

/-! ## Frontend `ApiService` (`frontend/src/services/api.ts`) -/

/-- Value of the `tags` field in a backend opportunity object: absent,
present but not an array, or an array of strings. -/
inductive BTags where
  | missing : BTags
  | nonArray : BTags
  | array : List String → BTags
deriving DecidableEq

/-- Backend opportunity object, restricted to the fields the frontend
transformation reads; all of them may be absent. -/
structure BackendOpportunity where
  opportunity_type : Option String
  category : Option String
  application_url : Option String
  source_url : Option String
  url : Option String
  tags : BTags
  created_at : Option String
  updated_at : Option String
  scraped_at : Option String
  department : Option String
  deadline : Option String
deriving DecidableEq

/-- Frontend `Opportunity` as produced by the transformation; the fields
written by the spread of the backend object are carried through. -/
structure Opportunity where
  opportunity_type : Option String
  application_url : Option String
  source_url : Option String
  scraped_at : Option String
  department : Option String
  deadline : Option String
  category : Option String
  url : Option String
  tags : List String
  created_at : Option String
  updated_at : Option String
deriving DecidableEq

/-- JavaScript `a || b` on two optional strings: `b` when `a` is absent
or the empty string (the only falsy string). -/
def jsOrStr (a b : Option String) : Option String :=
  match a with
  | some s => if s = "" then b else some s
  | none => b

/-- Method `ApiService.transformOpportunity`: spread the backend object,
then override `category` with `opportunity_type || category`, `url` with
`application_url || source_url || url`, `tags` with
`Array.isArray(tags) ? tags : []`, and `created_at` / `updated_at`
falling back to `scraped_at`. -/
def transformOpportunity (b : BackendOpportunity) : Opportunity :=
  { opportunity_type := b.opportunity_type,
    application_url := b.application_url,
    source_url := b.source_url,
    scraped_at := b.scraped_at,
    department := b.department,
    deadline := b.deadline,
    category := jsOrStr b.opportunity_type b.category,
    url := jsOrStr b.application_url (jsOrStr b.source_url b.url),
    tags := match b.tags with | .array l => l | _ => [],
    created_at := jsOrStr b.created_at b.scraped_at,
    updated_at := jsOrStr b.updated_at b.scraped_at }

/-- Method `ApiService.transformOpportunities`. -/
def transformOpportunities (l : List BackendOpportunity) : List Opportunity :=
  l.map transformOpportunity

/-- Paginated backend reply object for `GET /api/opportunities`; every
field may be absent at runtime. -/
structure BackendPage where
  opportunities : Option (List BackendOpportunity)
  total : Option Nat
  skip : Option Nat
  limit : Option Nat
deriving DecidableEq

/-- Body of a backend reply to `GET /api/opportunities`: either a bare
JSON array or a paginated object. -/
inductive BackendReply where
  | arrayBody : List BackendOpportunity → BackendReply
  | objectBody : BackendPage → BackendReply
deriving DecidableEq

/-- Value returned by `ApiService.getOpportunities`; `total`, `skip` and
`limit` stay optional because the object branch copies whatever the
reply object carries. -/
structure PaginatedOpportunities where
  opportunities : List Opportunity
  total : Option Nat
  skip : Option Nat
  limit : Option Nat
deriving DecidableEq

/-- Response handling of `ApiService.getOpportunities`: a bare array is
wrapped with `total = limit = length` and `skip = 0`; an object is spread
with its `opportunities` transformed (`response.data.opportunities || []`). -/
def getOpportunities : BackendReply → PaginatedOpportunities
  | .arrayBody l =>
    { opportunities := transformOpportunities l,
      total := some l.length,
      skip := some 0,
      limit := some l.length }
  | .objectBody o =>
    { opportunities := transformOpportunities (o.opportunities.getD []),
      total := o.total,
      skip := o.skip,
      limit := o.limit }

/-- LLM search request (`LLMSearchRequest` in `api.ts`); `limit` is a
JavaScript number modelled as `Nat`. -/
structure LLMSearchRequest where
  query : String
  limit : Option Nat
  include_inactive : Option Bool
deriving DecidableEq

/-- Uppercase hexadecimal digit, used by percent-encoding. -/
def hexDigitUpper (n : Nat) : Char :=
  if n < 10 then Char.ofNat (48 + n) else Char.ofNat (55 + n)

/-- The `application/x-www-form-urlencoded` serialisation of one byte, as
produced by `URLSearchParams.toString()`: ASCII alphanumerics and
`*`, `-`, `.`, `_` kept, space written `+`, everything else
percent-encoded. -/
def formByte (b : Nat) : List Char :=
  if (48 ≤ b ∧ b ≤ 57) ∨ (65 ≤ b ∧ b ≤ 90) ∨ (97 ≤ b ∧ b ≤ 122) ∨
      b = 42 ∨ b = 45 ∨ b = 46 ∨ b = 95 then [Char.ofNat b]
  else if b = 32 then ['+']
  else ['%', hexDigitUpper (b / 16), hexDigitUpper (b % 16)]

/-- Form-encoding of a string (UTF-8 then byte-wise encoding). -/
def formEncode (s : String) : String :=
  String.mk (((utf8Bytes s.toList).map formByte).flatten)

/-- Serialisation of a `URLSearchParams` list of key–value pairs. -/
def serializeParams (ps : List (String × String)) : String :=
  String.intercalate "&" (ps.map (fun kv => formEncode kv.1 ++ "=" ++ formEncode kv.2))

/-- The parameter list built by `ApiService.llmSearch`: always `query`;
`limit` only when `request.limit` is truthy (present and nonzero);
`use_vector_search=false` (the backend parameter name) whenever
`request.include_inactive` is defined, whatever its value. -/
def llmSearchParams (r : LLMSearchRequest) : List (String × String) :=
  [("query", r.query)] ++
    (match r.limit with
     | some n => if n = 0 then [] else [("limit", toString n)]
     | none => []) ++
    (match r.include_inactive with
     | some _ => [("use_vector_search", "false")]
     | none => [])

/-- URL of the POST issued by `ApiService.llmSearch`. -/
def llmSearchUrl (r : LLMSearchRequest) : String :=
  "/api/opportunities/search/llm?" ++ serializeParams (llmSearchParams r)

/-- The HTTP request of `ApiService.llmSearch` as a pair of URL and
optional body: `api.post` is called with no body argument. -/
def llmSearchHttp (r : LLMSearchRequest) : String × Option String :=
  (llmSearchUrl r, none)

/-- Backend reply body for the LLM search endpoint; every field may be
absent. -/
structure LLMBackendData where
  results : Option (List BackendOpportunity)
  total_found : Option Nat
  ai_explanation : Option String
  query : Option String
  processing_time : Option Nat
deriving DecidableEq

/-- JavaScript `a || d` for an optional string against a default. -/
def jsOrDefault (a : Option String) (d : String) : String :=
  match a with
  | some s => if s = "" then d else s
  | none => d

/-- Frontend `LLMSearchResponse`. -/
structure LLMSearchResponse where
  opportunities : List Opportunity
  total_found : Nat
  ai_explanation : String
  search_query : String
  processing_time : Nat
deriving DecidableEq

/-- Response handling of `ApiService.llmSearch`: transform
`backendData.results || []`, and default `total_found` to 0,
`ai_explanation` to the fixed sentence, `search_query` to the request's
query and `processing_time` to 0 (`||` defaults, so an absent numeric
field and a present 0 both give 0). -/
def llmSearch (r : LLMSearchRequest) (b : LLMBackendData) : LLMSearchResponse :=
  { opportunities := transformOpportunities (b.results.getD []),
    total_found := b.total_found.getD 0,
    ai_explanation := jsOrDefault b.ai_explanation "AI analysis completed",
    search_query := jsOrDefault b.query r.query,
    processing_time := b.processing_time.getD 0 }

/-! ## `SimpleResearchOpportunities` component -/

/-- The component's fixed page size. -/
def itemsPerPage : Nat := 50

/-- Search-mode `totalPages`: `Math.ceil(length / itemsPerPage)`. -/
def searchTotalPages (results : List Opportunity) : Nat :=
  (results.length + (itemsPerPage - 1)) / itemsPerPage

/-- Search-mode pagination effect: page `p` shows
`allSearchResults.slice((p - 1) * itemsPerPage, p * itemsPerPage)`. -/
def searchPageItems (results : List Opportunity) (page : Nat) : List Opportunity :=
  (results.drop ((page - 1) * itemsPerPage)).take itemsPerPage

/-- Direction of the date comparison in `compareDates`. -/
inductive DateCmp where
  | ge : DateCmp
  | le : DateCmp
deriving DecidableEq

/-- Helper `compareDates` of the component: false when either argument is
absent or empty (falsy) or fails to parse as a date (`isValidDate`);
otherwise the timestamp comparison.  The JavaScript `new Date(...)`
parser is the abstract parameter `parse`, returning `none` for `NaN`. -/
def compareDates (parse : String → Option Int) (d1 d2 : Option String)
    (op : DateCmp) : Bool :=
  match d1, d2 with
  | some s1, some s2 =>
    if s1 = "" ∨ s2 = "" then false
    else
      match parse s1, parse s2 with
      | some t1, some t2 =>
        match op with
        | .ge => decide (t2 ≤ t1)
        | .le => decide (t1 ≤ t2)
      | _, _ => false
  | _, _ => false

/-- The filter inputs of `handleSearch` (empty string and empty list mean
"filter not set", exactly the component's falsy checks). -/
structure SearchFilters where
  departmentFilter : String
  selectedTypes : List String
  selectedTags : List String
  deadlineFilter : String
  deadlineBeforeFilter : String
deriving DecidableEq

/-- The client-side filter predicate of `handleSearch`: department,
types, tags and the deadline window must all match. -/
def matchesFilters (parse : String → Option Int) (f : SearchFilters)
    (o : Opportunity) : Bool :=
  let matchesDepartment :=
    (f.departmentFilter = "") ||
      (match o.department with
       | some d => d = f.departmentFilter
       | none => false)
  let matchesTypes :=
    f.selectedTypes.isEmpty ||
      (match o.category with
       | some c => if c = "" then false else f.selectedTypes.contains c
       | none => false)
  let matchesTags :=
    f.selectedTags.isEmpty || o.tags.any (fun t => f.selectedTags.contains t)
  let matchesDeadline :=
    ((f.deadlineFilter = "") ||
        compareDates parse o.deadline (some f.deadlineFilter) .ge) &&
      ((f.deadlineBeforeFilter = "") ||
        compareDates parse o.deadline (some f.deadlineBeforeFilter) .le)
  matchesDepartment && matchesTypes && matchesTags && matchesDeadline

/-- The guard of `handleSearch` around the client-side filtering: at
least one filter is active. -/
def anyFilterActive (f : SearchFilters) : Bool :=
  !(f.departmentFilter = "") || !f.selectedTypes.isEmpty ||
    !f.selectedTags.isEmpty || !(f.deadlineFilter = "") ||
    !(f.deadlineBeforeFilter = "")

/-- The `filteredResults` computation of `handleSearch`: the fetched list
is filtered only when some filter is active. -/
def applySearchFilters (parse : String → Option Int) (f : SearchFilters)
    (results : List Opportunity) : List Opportunity :=
  if anyFilterActive f then results.filter (matchesFilters parse f) else results

/-! ## Character and normalisation lemmas -/

lemma char_toNat_ofNat (n : Nat) (h : n < 55296) : (Char.ofNat n).toNat = n := by
  unfold Char.ofNat
  split
  · rfl
  · rename_i hv
    exact absurd (Or.inl h) hv

lemma isSp_sqlLowerChar (c : Char) : isSp (sqlLowerChar c) = isSp c := by
  unfold sqlLowerChar
  split
  · rename_i h
    have h1 : (Char.ofNat (c.toNat + 32)).toNat = c.toNat + 32 :=
      char_toNat_ofNat _ (by omega)
    have l1 : (Char.ofNat (c.toNat + 32)) ≠ ' ' := by
      intro he
      have h2 := congrArg Char.toNat he
      rw [h1] at h2
      have h3 : (' ').toNat = 32 := rfl
      omega
    have l2 : c ≠ ' ' := by
      intro he
      subst he
      have h3 : (' ').toNat = 32 := rfl
      omega
    simp [isSp, l1, l2]
  · rfl

lemma dropWhile_isSp_sqlLower (l : List Char) :
    List.dropWhile isSp (sqlLower l) = sqlLower (List.dropWhile isSp l) := by
  unfold sqlLower
  rw [List.dropWhile_map]
  have hp : (isSp ∘ sqlLowerChar) = isSp := funext isSp_sqlLowerChar
  rw [hp]

lemma sqlLower_reverse (l : List Char) : (sqlLower l).reverse = sqlLower l.reverse := by
  unfold sqlLower
  exact (List.map_reverse _ _).symm

lemma sqlTrim_sqlLower (l : List Char) : sqlTrim (sqlLower l) = sqlLower (sqlTrim l) := by
  unfold sqlTrim
  rw [dropWhile_isSp_sqlLower, sqlLower_reverse, dropWhile_isSp_sqlLower, sqlLower_reverse]

lemma sqlLeft_sqlLower (n : Nat) (l : List Char) :
    sqlLeft n (sqlLower l) = sqlLower (sqlLeft n l) := by
  unfold sqlLeft sqlLower
  exact (List.map_take _ _ _).symm

/-! ## Hex output shape lemmas -/

/-- Test for a lowercase hexadecimal digit character. -/
def isLowerHexChar (c : Char) : Bool :=
  (48 ≤ c.toNat && c.toNat ≤ 57) || (97 ≤ c.toNat && c.toNat ≤ 102)

lemma length_bytesToHex (bs : List Nat) : (bytesToHex bs).length = 2 * bs.length := by
  induction bs with
  | nil => rfl
  | cons b rest ih =>
    simp only [bytesToHex, List.map_cons, List.flatten_cons] at *
    simp [ih]
    omega

lemma length_beBytes (k n : Nat) : (beBytes k n).length = k := by
  induction k generalizing n with
  | zero => rfl
  | succ k ih => simp [beBytes, ih]

lemma mem_beBytes_lt (k n b : Nat) (hb : b ∈ beBytes k n) : b < 256 := by
  induction k generalizing n with
  | zero => simp [beBytes] at hb
  | succ k ih =>
    simp only [beBytes, List.mem_append, List.mem_singleton] at hb
    rcases hb with hb | hb
    · exact ih _ hb
    · omega

lemma length_sha256Bytes (msg : List Nat) : (sha256Bytes msg).length = 32 := by
  unfold sha256Bytes
  simp [length_beBytes]

lemma mem_sha256Bytes_lt (msg : List Nat) (b : Nat) (hb : b ∈ sha256Bytes msg) :
    b < 256 := by
  unfold sha256Bytes at hb
  simp only [List.mem_flatten, List.mem_map] at hb
  obtain ⟨l, ⟨x, _, hl⟩, hbl⟩ := hb
  exact mem_beBytes_lt _ _ _ (hl ▸ hbl)

lemma isLowerHexChar_hexDigit (m : Nat) (hm : m < 16) :
    isLowerHexChar (hexDigit m) = true := by
  unfold hexDigit
  split
  · have h1 : (Char.ofNat (48 + m)).toNat = 48 + m := char_toNat_ofNat _ (by omega)
    simp [isLowerHexChar, h1]
    omega
  · have h1 : (Char.ofNat (87 + m)).toNat = 87 + m := char_toNat_ofNat _ (by omega)
    simp [isLowerHexChar, h1]
    omega

lemma bytesToHex_all_hex (bs : List Nat) (hbs : ∀ b ∈ bs, b < 256) :
    (bytesToHex bs).all isLowerHexChar = true := by
  rw [List.all_eq_true]
  intro c hc
  unfold bytesToHex at hc
  simp only [List.mem_flatten, List.mem_map] at hc
  obtain ⟨l, ⟨b, hb, hl⟩, hcl⟩ := hc
  subst hl
  have hblt := hbs b hb
  simp only [List.mem_cons, List.mem_singleton] at hcl
  rcases hcl with hcl | hcl | hcl
  · subst hcl
    exact isLowerHexChar_hexDigit _ (by omega)
  · subst hcl
    exact isLowerHexChar_hexDigit _ (by omega)
  · cases hcl

/-- C1: `generate_opportunity_content_hash` returns the lowercase-hex
SHA-256 of the `'|'`-joined normalised fields — title and department
lowercased and trimmed, description truncated to 500 characters then
lowercased and trimmed, source URL verbatim, deadline and funding amount
trimmed, `NULL` as the empty string; the result is 64 characters of
lowercase hex. -/
theorem c1_content_hash_as_specified
    (title description department source_url deadline funding_amount :
      Option (List Char)) :
    generate_opportunity_content_hash title description department source_url
        deadline funding_amount =
      contentHashAsSpecified title description department source_url
        deadline funding_amount ∧
    (generate_opportunity_content_hash title description department source_url
        deadline funding_amount).length = 64 ∧
    (generate_opportunity_content_hash title description department source_url
        deadline funding_amount).all isLowerHexChar = true := by
  refine ⟨?_, ?_, ?_⟩
  · unfold generate_opportunity_content_hash contentHashAsSpecified
    congr 1
    simp [List.intercalate, List.intersperse, sqlTrim_sqlLower, sqlLeft_sqlLower]
  · unfold generate_opportunity_content_hash sha256Hex
    rw [length_bytesToHex, length_sha256Bytes]
  · unfold generate_opportunity_content_hash sha256Hex
    exact bytesToHex_all_hex _ (mem_sha256Bytes_lt _)

lemma length_leBytes (k n : Nat) : (leBytes k n).length = k := by
  induction k generalizing n with
  | zero => rfl
  | succ k ih => simp [leBytes, ih]

lemma length_md5Bytes (msg : List Nat) : (md5Bytes msg).length = 16 := by
  unfold md5Bytes
  simp [length_leBytes]

lemma length_md5Hex (l : List Char) : (md5Hex l).length = 32 := by
  unfold md5Hex
  rw [length_bytesToHex, length_md5Bytes]

/-- C3: the fresh-migration `generate_similarity_group_id` (which takes
`LEFT(..., 16)` of the hex MD5) and the tracking-migration version
(which casts the full hex digest to `VARCHAR(16)`) agree on every input,
including `NULL` inputs and source URLs that do not match
`^https?://([^/]+)`, and the common value has exactly 16 characters. -/
theorem c3_similarity_group_functions_agree
    (p_title p_department p_source_url : Option (List Char)) :
    generate_similarity_group_id p_title p_department p_source_url =
      generate_similarity_group_id_tracking p_title p_department p_source_url ∧
    (generate_similarity_group_id p_title p_department p_source_url).length = 16 := by
  constructor
  · cases p_source_url with
    | none =>
      simp [generate_similarity_group_id, generate_similarity_group_id_tracking,
        varcharCast, sqlLeft, textOrEmpty]
    | some u =>
      simp [generate_similarity_group_id, generate_similarity_group_id_tracking,
        varcharCast, sqlLeft]
  · unfold generate_similarity_group_id
    simp [sqlLeft, List.length_take, length_md5Hex]

lemma dropWhile_isSp_replicate_append (m : Nat) (y : List Char) :
    List.dropWhile isSp (List.replicate m ' ' ++ y) = List.dropWhile isSp y := by
  induction m with
  | zero => rfl
  | succ m ih => simp [List.replicate_succ, List.dropWhile_cons, isSp, ih]

lemma dropWhile_isSp_replicate (m : Nat) :
    List.dropWhile isSp (List.replicate m ' ') = [] := by
  have h := dropWhile_isSp_replicate_append m []
  simp only [List.append_nil] at h
  simp [h]

lemma sqlTrim_append_replicate (x : List Char) (m : Nat) :
    sqlTrim (x ++ List.replicate m ' ') = sqlTrim x := by
  unfold sqlTrim
  rw [List.dropWhile_append]
  by_cases he : (List.dropWhile isSp x).isEmpty = true
  · rw [if_pos he, dropWhile_isSp_replicate]
    rw [List.isEmpty_iff] at he
    rw [he]
  · rw [if_neg he]
    rw [List.reverse_append, List.reverse_replicate, dropWhile_isSp_replicate_append]

lemma sqlTrim_sqlLeft_append_replicate (d : List Char) (k : Nat) :
    sqlTrim (sqlLeft 500 (d ++ List.replicate k ' ')) = sqlTrim (sqlLeft 500 d) := by
  unfold sqlLeft
  rw [List.take_append_eq_append_take, List.take_replicate, sqlTrim_append_replicate]

/-- C4 (amended): the content hash is invariant under letter-case changes
of title, department and description, leading or trailing whitespace
changes of title and department, trailing whitespace appended to the
description, and any change to the description past its first 500
characters.  (Leading whitespace added to a description longer than 500
characters can change the hash, because the code truncates to 500
characters before trimming; see the counterexample.) -/
theorem c4_hash_normalisation_invariance :
    (∀ (t1 t2 dep1 dep2 : List Char) (d u dl fa : Option (List Char)),
      sqlTrim t1 = sqlTrim t2 → sqlTrim dep1 = sqlTrim dep2 →
      generate_opportunity_content_hash (some t1) d (some dep1) u dl fa =
        generate_opportunity_content_hash (some t2) d (some dep2) u dl fa) ∧
    (∀ (t1 t2 dep1 dep2 : List Char) (d u dl fa : Option (List Char)),
      sqlLower t1 = sqlLower t2 → sqlLower dep1 = sqlLower dep2 →
      generate_opportunity_content_hash (some t1) d (some dep1) u dl fa =
        generate_opportunity_content_hash (some t2) d (some dep2) u dl fa) ∧
    (∀ (d1 d2 : List Char) (t dep u dl fa : Option (List Char)),
      sqlLeft 500 d1 = sqlLeft 500 d2 →
      generate_opportunity_content_hash t (some d1) dep u dl fa =
        generate_opportunity_content_hash t (some d2) dep u dl fa) ∧
    (∀ (d1 d2 : List Char) (t dep u dl fa : Option (List Char)),
      sqlLower d1 = sqlLower d2 →
      generate_opportunity_content_hash t (some d1) dep u dl fa =
        generate_opportunity_content_hash t (some d2) dep u dl fa) ∧
    (∀ (d : List Char) (k : Nat) (t dep u dl fa : Option (List Char)),
      generate_opportunity_content_hash t (some (d ++ List.replicate k ' ')) dep u dl fa =
        generate_opportunity_content_hash t (some d) dep u dl fa) := by
  refine ⟨?_, ?_, ?_, ?_, ?_⟩
  · intro t1 t2 dep1 dep2 d u dl fa h1 h2
    unfold generate_opportunity_content_hash
    simp [textOrEmpty, h1, h2]
  · intro t1 t2 dep1 dep2 d u dl fa h1 h2
    have e1 : sqlLower (sqlTrim t1) = sqlLower (sqlTrim t2) := by
      rw [← sqlTrim_sqlLower, h1, sqlTrim_sqlLower]
    have e2 : sqlLower (sqlTrim dep1) = sqlLower (sqlTrim dep2) := by
      rw [← sqlTrim_sqlLower, h2, sqlTrim_sqlLower]
    unfold generate_opportunity_content_hash
    simp [textOrEmpty, e1, e2]
  · intro d1 d2 t dep u dl fa h
    unfold generate_opportunity_content_hash
    simp [textOrEmpty, h]
  · intro d1 d2 t dep u dl fa h
    have e0 : sqlLower (sqlLeft 500 d1) = sqlLower (sqlLeft 500 d2) := by
      rw [← sqlLeft_sqlLower, h, sqlLeft_sqlLower]
    have e1 : sqlLower (sqlTrim (sqlLeft 500 d1)) = sqlLower (sqlTrim (sqlLeft 500 d2)) := by
      rw [← sqlTrim_sqlLower, e0, sqlTrim_sqlLower]
    unfold generate_opportunity_content_hash
    simp [textOrEmpty, e1]
  · intro d k t dep u dl fa
    have e1 : sqlTrim (sqlLeft 500 (d ++ List.replicate k ' ')) = sqlTrim (sqlLeft 500 d) :=
      sqlTrim_sqlLeft_append_replicate d k
    unfold generate_opportunity_content_hash
    simp [textOrEmpty, e1]

/-- C4 witness: a title differing only in leading and trailing spaces
gives the same content hash. -/
theorem c4_hash_normalisation_invariance_witness :
    generate_opportunity_content_hash (some "  Machine Learning Lab".toList)
        none none none none none =
      generate_opportunity_content_hash (some "Machine Learning Lab  ".toList)
        none none none none none :=
  c4_hash_normalisation_invariance.1 "  Machine Learning Lab".toList
    "Machine Learning Lab  ".toList [] [] none none none none
    (by decide) (by decide)

/-- C4 counterexample: adding a single leading space to a 501-character
description changes the content hash, although the claim allows
leading-whitespace changes; the truncation to 500 characters happens
before the trim, so the space pushes the last `a` out of the hashed
window. -/
theorem c4_leading_space_changes_hash :
    generate_opportunity_content_hash none (some (' ' :: List.replicate 501 'a'))
        none none none none ≠
      generate_opportunity_content_hash none (some (List.replicate 501 'a'))
        none none none none := by
  decide

/-! ## Step-4 migration lemmas -/

lemma mem_insertById (r a : OppRow) (l : List OppRow) :
    a ∈ insertById r l ↔ a = r ∨ a ∈ l := by
  induction l with
  | nil => simp [insertById]
  | cons x xs ih =>
    unfold insertById
    split
    · simp
    · simp [ih]
      tauto

lemma mem_sortById (a : OppRow) (l : List OppRow) : a ∈ sortById l ↔ a ∈ l := by
  induction l with
  | nil => simp [sortById]
  | cons x xs ih => simp [sortById, mem_insertById, ih]

lemma length_insertById (r : OppRow) (l : List OppRow) :
    (insertById r l).length = l.length + 1 := by
  induction l with
  | nil => rfl
  | cons x xs ih =>
    unfold insertById
    split
    · simp
    · simp [ih]

lemma length_sortById (l : List OppRow) : (sortById l).length = l.length := by
  induction l with
  | nil => rfl
  | cons x xs ih => simp [sortById, length_insertById, ih]

lemma step4Go_stop (now r2u fuel : Nat) (table : List OppRow) (processed : Nat)
    (h : ¬ processed < r2u) : step4Go now r2u fuel table processed = table := by
  cases fuel with
  | zero => rfl
  | succ k => simp [step4Go, h]

/-- C2 (amended): when at most 100 rows (one batch) need initial tracking
data and row ids are distinct, the Step-4 block updates exactly the rows
whose `first_seen_at`, `last_seen_at` or `status` is `NULL`; each updated
row ends with all five tracking fields non-`NULL`, a previously `NULL`
status becomes `'active'` when `is_active = true` and `'removed'`
otherwise, a previously set status is kept, and the missing counter keeps
its previous value, defaulting to 0 when it was `NULL`.  Rows outside the
selection (for example with only `last_updated_at` or
`consecutive_missing_count` `NULL`) are untouched. -/
theorem c2_step4_small_table (now : Nat) (table : List OppRow)
    (hcount : (table.filter needsInit).length ≤ 100)
    (hids : (table.map OppRow.id).Nodup) :
    migrationStep4 now table =
      table.map (fun r => if needsInit r then initRow now r else r) ∧
    ∀ r ∈ table, needsInit r = true →
      ((initRow now r).first_seen_at.isSome = true ∧
       (initRow now r).last_seen_at.isSome = true ∧
       (initRow now r).last_updated_at.isSome = true ∧
       (initRow now r).status.isSome = true ∧
       (initRow now r).consecutive_missing_count.isSome = true) ∧
      (r.status = none → (initRow now r).status = some (initStatus r)) ∧
      (∀ s, r.status = some s → (initRow now r).status = some s) ∧
      (initRow now r).consecutive_missing_count =
        some (r.consecutive_missing_count.getD 0) := by
  constructor
  · unfold migrationStep4
    by_cases h0 : (table.filter needsInit).length = 0
    · rw [h0]
      have hnil : table.filter needsInit = [] := List.length_eq_zero.mp h0
      have hno : ∀ r ∈ table, ¬ needsInit r = true := List.filter_eq_nil_iff.mp hnil
      have hmap : table.map (fun r => if needsInit r then initRow now r else r) =
          table.map id :=
        List.map_congr_left (fun a ha => by rw [if_neg (hno a ha)]; rfl)
      rw [hmap, List.map_id]
      rfl
    · obtain ⟨k, hk⟩ : ∃ k, (table.filter needsInit).length = k + 1 :=
        ⟨(table.filter needsInit).length - 1, by omega⟩
      rw [hk]
      have hk100 : k + 1 ≤ 100 := hk ▸ hcount
      show step4Go now (k + 1) (k + 1) table 0 = _
      rw [show step4Go now (k + 1) (k + 1) table 0 =
          step4Go now (k + 1) k (applyBatch now table 0) 100 by
        simp [step4Go]]
      rw [step4Go_stop now (k + 1) k (applyBatch now table 0) 100 (by omega)]
      unfold applyBatch selectBatchIds
      rw [List.drop_zero]
      have hlen : (sortById (table.filter needsInit)).length ≤ 100 := by
        rw [length_sortById]
        exact hcount
      rw [List.take_of_length_le hlen]
      apply List.map_congr_left
      intro r hr
      by_cases hni : needsInit r = true
      · have hmemf : r ∈ table.filter needsInit := List.mem_filter.mpr ⟨hr, hni⟩
        have hmems : r ∈ sortById (table.filter needsInit) :=
          (mem_sortById r _).mpr hmemf
        have hmemid : r.id ∈ (sortById (table.filter needsInit)).map OppRow.id :=
          List.mem_map.mpr ⟨r, hmems, rfl⟩
        rw [if_pos (List.elem_iff.mpr hmemid), if_pos hni]
      · have hnotmem : r.id ∉ (sortById (table.filter needsInit)).map OppRow.id := by
          intro hmem
          obtain ⟨r', hr's, hr'id⟩ := List.mem_map.mp hmem
          have hr'f := (mem_sortById r' _).mp hr's
          obtain ⟨hr't, hr'ni⟩ := List.mem_filter.mp hr'f
          have : r' = r := List.inj_on_of_nodup_map hids hr't hr hr'id
          subst this
          exact hni hr'ni
        rw [if_neg (fun hc => hnotmem (List.elem_iff.mp hc)), if_neg hni]
  · intro r hr hni
    refine ⟨⟨rfl, rfl, rfl, rfl, rfl⟩, ?_, ?_, ?_⟩
    · intro h
      simp [initRow, h]
    · intro s h
      simp [initRow, h]
    · rfl

/-- Two-row table for the C2 witness: row 1 needs initial tracking data,
row 2 has status and seen timestamps set (and is outside the selection
even though `last_updated_at` is `NULL`). -/
def c2WitnessTable : List OppRow :=
  [⟨1, some 11, some true, none, none, none, none, none⟩,
   ⟨2, none, some false, some 5, some 6, none, some "missing", some 3⟩]

/-- C2 witness: the amended theorem evaluated on `c2WitnessTable`. -/
theorem c2_step4_small_table_witness :
    migrationStep4 99 c2WitnessTable =
      [⟨1, some 11, some true, some 11, some 11, some 11, some "active", some 0⟩,
       ⟨2, none, some false, some 5, some 6, none, some "missing", some 3⟩] :=
  ((c2_step4_small_table 99 c2WitnessTable (by decide) (by decide)).1).trans (by decide)

/-- Table of 101 rows that all need initial tracking data, one more than
the batch size. -/
def c2LargeTable : List OppRow :=
  (List.range 101).map (fun i => ⟨i, none, some true, none, none, none, none, none⟩)

/-- C2 counterexample: on a table of 101 rows needing tracking data, the
Step-4 block leaves a row with `NULL` status.  The second loop iteration
recomputes the batch subquery against the already-updated table, where
only one row still matches, and then skips it with `OFFSET 100`. -/
theorem c2_batching_skips_rows :
    (migrationStep4 0 c2LargeTable).any (fun r => r.status.isNone) = true := by
  decide

/-- C5 counterexample: a request whose `limit` is set to 0 sends no
`limit` query parameter, because `if (request.limit)` is a truthiness
test; the claim says the limit is passed whenever it is set. -/
theorem c5_zero_limit_not_sent :
    (LLMSearchRequest.mk "grants" (some 0) none).limit.isSome = true ∧
    llmSearchUrl ⟨"grants", some 0, none⟩ =
      "/api/opportunities/search/llm?query=grants" := by
  constructor
  · rfl
  · decide

/-- C5 (amended): `llmSearch` issues its POST with the parameters in the
URL and no request body; `query` is always a parameter, `limit` is a
parameter exactly when it is set and nonzero (a zero limit is dropped by
the truthiness test); and every response field falls back to its default
when the backend reply omits it: `opportunities` to `[]`, `total_found`
to 0, `ai_explanation` to "AI analysis completed", `search_query` to the
request's own query, `processing_time` to 0. -/
theorem c5_llm_search_request_response (r : LLMSearchRequest) (b : LLMBackendData) :
    llmSearchHttp r =
      ("/api/opportunities/search/llm?" ++ serializeParams (llmSearchParams r), none) ∧
    ("query", r.query) ∈ llmSearchParams r ∧
    (∀ n, r.limit = some n → n ≠ 0 → ("limit", toString n) ∈ llmSearchParams r) ∧
    (r.limit = some 0 → ((llmSearchParams r).map Prod.fst).contains "limit" = false) ∧
    (b.results = none → (llmSearch r b).opportunities = []) ∧
    (b.total_found = none → (llmSearch r b).total_found = 0) ∧
    (b.ai_explanation = none → (llmSearch r b).ai_explanation = "AI analysis completed") ∧
    (b.query = none → (llmSearch r b).search_query = r.query) ∧
    (b.processing_time = none → (llmSearch r b).processing_time = 0) := by
  refine ⟨rfl, ?_, ?_, ?_, ?_, ?_, ?_, ?_, ?_⟩
  · simp [llmSearchParams]
  · intro n hn hnz
    simp [llmSearchParams, hn, hnz]
  · intro h0
    cases hinc : r.include_inactive <;> simp [llmSearchParams, h0, hinc]
  · intro h
    simp [llmSearch, h, transformOpportunities]
  · intro h
    simp [llmSearch, h]
  · intro h
    simp [llmSearch, h, jsOrDefault]
  · intro h
    simp [llmSearch, h, jsOrDefault]
  · intro h
    simp [llmSearch, h]

/-- C5 witness: a request with query "robotics", limit 3 and
`include_inactive` false, answered by an empty backend reply. -/
theorem c5_llm_search_request_response_witness :
    ("limit", toString 3) ∈ llmSearchParams ⟨"robotics", some 3, some false⟩ ∧
    (llmSearch ⟨"robotics", some 3, some false⟩
        ⟨none, none, none, none, none⟩).ai_explanation = "AI analysis completed" ∧
    (llmSearch ⟨"robotics", some 3, some false⟩
        ⟨none, none, none, none, none⟩).search_query = "robotics" := by
  have h := c5_llm_search_request_response ⟨"robotics", some 3, some false⟩
    ⟨none, none, none, none, none⟩
  exact ⟨h.2.2.1 3 rfl (by decide), h.2.2.2.2.2.2.1 rfl, h.2.2.2.2.2.2.2.1 rfl⟩

/-- C9: the request built by `llmSearch` does not depend on the value of
`include_inactive`: a request with `include_inactive = true` and one
with `include_inactive = false` produce the same URL and body, no
`include_inactive` parameter is ever sent, and whenever the field is
defined the fixed parameter `use_vector_search=false` is appended
instead. -/
theorem c9_include_inactive_not_observable (q : String) (lim : Option Nat) :
    llmSearchHttp ⟨q, lim, some true⟩ = llmSearchHttp ⟨q, lim, some false⟩ ∧
    (∀ inc : Option Bool,
      ((llmSearchParams ⟨q, lim, inc⟩).map Prod.fst).contains "include_inactive" = false) ∧
    (∀ b : Bool, ("use_vector_search", "false") ∈ llmSearchParams ⟨q, lim, some b⟩) := by
  refine ⟨rfl, ?_, ?_⟩
  · intro inc
    cases lim with
    | none => cases inc <;> simp [llmSearchParams]
    | some n =>
      by_cases hn : n = 0 <;> cases inc <;> simp [llmSearchParams, hn]
  · intro b
    simp [llmSearchParams]

/-- C7: `getOpportunities` wraps a bare-array reply with
`total = limit = length` (the length of the transformed list, which the
transformation preserves) and `skip = 0`; an object reply keeps its own
fields with `opportunities` transformed, substituting the empty list
when the field is missing. -/
theorem c7_get_opportunities_shapes :
    (∀ l, getOpportunities (.arrayBody l) =
      { opportunities := transformOpportunities l,
        total := some ((transformOpportunities l).length),
        skip := some 0,
        limit := some ((transformOpportunities l).length) }) ∧
    (∀ o, getOpportunities (.objectBody o) =
      { opportunities := transformOpportunities (o.opportunities.getD []),
        total := o.total,
        skip := o.skip,
        limit := o.limit }) ∧
    (∀ t s m, (getOpportunities (.objectBody ⟨none, t, s, m⟩)).opportunities = []) := by
  refine ⟨?_, ?_, ?_⟩
  · intro l
    simp [getOpportunities, transformOpportunities]
  · intro o
    rfl
  · intro t s m
    simp [getOpportunities, transformOpportunities]

/-- Backend object for the C8 counterexample: `opportunity_type` is
present but empty. -/
def c8Backend : BackendOpportunity :=
  { opportunity_type := some "",
    category := some "Research",
    application_url := none,
    source_url := none,
    url := none,
    tags := BTags.nonArray,
    created_at := none,
    updated_at := none,
    scraped_at := none,
    department := none,
    deadline := none }

/-- C8 counterexample: with `opportunity_type` present but equal to the
empty string, the transformed `category` is the backend `category`, not
the present `opportunity_type`, because `||` treats the empty string as
absent. -/
theorem c8_empty_type_not_used :
    c8Backend.opportunity_type = some "" ∧
    (transformOpportunity c8Backend).category = some "Research" := by
  constructor
  · rfl
  · decide

/-- C8 (amended): every transformed opportunity has `tags` equal to the
backend array and the empty list whenever the backend value is missing
or not an array; `category` equals `opportunity_type` when that is
present and non-empty, otherwise the backend `category`; and `url` is
the first of `application_url`, `source_url`, `url` that is present and
non-empty. -/
theorem c8_transform_invariants (b : BackendOpportunity) :
    (∀ l, b.tags = BTags.array l → (transformOpportunity b).tags = l) ∧
    (b.tags = BTags.missing ∨ b.tags = BTags.nonArray →
      (transformOpportunity b).tags = []) ∧
    (∀ s, b.opportunity_type = some s → s ≠ "" →
      (transformOpportunity b).category = some s) ∧
    (b.opportunity_type = none ∨ b.opportunity_type = some "" →
      (transformOpportunity b).category = b.category) ∧
    (∀ s, b.application_url = some s → s ≠ "" →
      (transformOpportunity b).url = some s) ∧
    (b.application_url = none ∨ b.application_url = some "" →
      ∀ s, b.source_url = some s → s ≠ "" → (transformOpportunity b).url = some s) ∧
    (b.application_url = none ∨ b.application_url = some "" →
      b.source_url = none ∨ b.source_url = some "" →
      (transformOpportunity b).url = b.url) := by
  refine ⟨?_, ?_, ?_, ?_, ?_, ?_, ?_⟩
  · intro l h
    simp [transformOpportunity, h]
  · intro h
    rcases h with h | h <;> simp [transformOpportunity, h]
  · intro s h hs
    simp [transformOpportunity, jsOrStr, h, hs]
  · intro h
    rcases h with h | h <;> simp [transformOpportunity, jsOrStr, h]
  · intro s h hs
    simp [transformOpportunity, jsOrStr, h, hs]
  · intro h s hsrc hs
    rcases h with h | h <;> simp [transformOpportunity, jsOrStr, h, hsrc, hs]
  · intro h h2
    rcases h with h | h <;> rcases h2 with h2 | h2 <;>
      simp [transformOpportunity, jsOrStr, h, h2]

/-- Backend object for the C8 witness. -/
def c8WitnessBackend : BackendOpportunity :=
  ⟨some "PhD", some "x", some "", some "http://lab", none, BTags.array ["ml"],
   none, none, none, none, none⟩

/-- C8 witness: the amended invariants evaluated on a concrete backend
object whose `application_url` is empty. -/
theorem c8_transform_invariants_witness :
    (transformOpportunity c8WitnessBackend).category = some "PhD" ∧
    (transformOpportunity c8WitnessBackend).url = some "http://lab" ∧
    (transformOpportunity c8WitnessBackend).tags = ["ml"] := by
  have h := c8_transform_invariants c8WitnessBackend
  exact ⟨h.2.2.1 "PhD" rfl (by decide),
    h.2.2.2.2.2.1 (Or.inr rfl) "http://lab" rfl (by decide),
    h.1 ["ml"] rfl⟩

/-! ## Pagination lemmas -/

lemma ceilDiv_succ_step (k n : Nat) (hk : 0 < k) (hn : 0 < n) :
    (n + (k - 1)) / k = ((n - k) + (k - 1)) / k + 1 := by
  by_cases h : n ≤ k
  · have hl : (n + (k - 1)) / k = 1 := by
      apply Nat.div_eq_of_lt_le
      · omega
      · omega
    have hr : ((n - k) + (k - 1)) / k = 0 := Nat.div_eq_of_lt (by omega)
    omega
  · rw [show n + (k - 1) = ((n - k) + (k - 1)) + k by omega, Nat.add_div_right _ hk]

lemma flatten_chunks {α : Type} (k : Nat) (hk : 0 < k) :
    ∀ (n : Nat) (l : List α), l.length ≤ n →
      ((List.range ((l.length + (k - 1)) / k)).map
          (fun i => (l.drop (i * k)).take k)).flatten = l := by
  intro n
  induction n with
  | zero =>
    intro l hl
    have : l = [] := List.eq_nil_of_length_eq_zero (by omega)
    subst this
    simp [Nat.div_eq_of_lt (by omega : 0 + (k - 1) < k)]
  | succ n ih =>
    intro l hl
    cases l with
    | nil => simp [Nat.div_eq_of_lt (by omega : 0 + (k - 1) < k)]
    | cons a t =>
      have hlen : 0 < (a :: t).length := by simp
      rw [ceilDiv_succ_step k _ hk hlen]
      rw [List.range_succ_eq_map, List.map_cons, List.flatten_cons]
      have hdl : ((a :: t).drop k).length = (a :: t).length - k := List.length_drop _ _
      have hstep : (List.map ((fun i => (List.take k (List.drop (i * k) (a :: t)))) ∘ Nat.succ)
          (List.range (((a :: t).length - k + (k - 1)) / k))).flatten = (a :: t).drop k := by
        have hmapeq :
            (fun i => (List.take k (List.drop (i * k) (a :: t)))) ∘ Nat.succ =
              (fun i => (((a :: t).drop k).drop (i * k)).take k) := by
          funext i
          simp only [Function.comp]
          rw [List.drop_drop, Nat.succ_mul]
          congr 2
          omega
        rw [hmapeq, ← hdl]
        refine ih ((a :: t).drop k) ?_
        rw [hdl]
        simp only [List.length_cons] at hl ⊢
        omega
      rw [List.map_map, hstep]
      simp only [Nat.zero_mul, List.drop_zero]
      exact List.take_append_drop k (a :: t)

/-- C6: in search mode with 50 items per page, `totalPages` is the
ceiling of the cached-result count divided by 50; page `p` shows the
slice starting at `(p - 1) * 50` of length at most 50; every page before
the last shows exactly 50 items; and the concatenation of the pages in
order is exactly the cached result list, so the pages partition it. -/
theorem c6_search_pagination (results : List Opportunity) :
    searchTotalPages results = (results.length + 49) / 50 ∧
    (∀ p, 1 ≤ p → p < searchTotalPages results →
      (searchPageItems results p).length = 50) ∧
    ((List.range (searchTotalPages results)).map
        (fun i => searchPageItems results (i + 1))).flatten = results := by
  refine ⟨rfl, ?_, ?_⟩
  · intro p hp1 hplt
    unfold searchPageItems itemsPerPage
    rw [List.length_take, List.length_drop]
    unfold searchTotalPages itemsPerPage at hplt
    have hple : p + 1 ≤ (results.length + 49) / 50 := hplt
    have := (Nat.le_div_iff_mul_le (by omega : 0 < 50)).mp hple
    omega
  · have h := flatten_chunks 50 (by omega) results.length results le_rfl
    exact h

/-- All-empty opportunity used to build concrete lists. -/
def emptyOpp : Opportunity :=
  ⟨none, none, none, none, none, none, none, none, [], none, none⟩

/-- Cached search-result list of 120 items for the C6 witness. -/
def c6List : List Opportunity := List.replicate 120 emptyOpp

/-- C6 witness: with 120 cached results there are 3 pages, page 2 shows
exactly 50 items, and the pages concatenate back to the cached list. -/
theorem c6_search_pagination_witness :
    (searchPageItems c6List 2).length = 50 ∧
    ((List.range (searchTotalPages c6List)).map
        (fun i => searchPageItems c6List (i + 1))).flatten = c6List :=
  ⟨(c6_search_pagination c6List).2.1 2 (by decide) (by decide),
   (c6_search_pagination c6List).2.2⟩

lemma compareDates_valid (parse : String → Option Int) (d1 d2 : Option String)
    (op : DateCmp) (h : compareDates parse d1 d2 op = true) :
    ∃ s, d1 = some s ∧ s ≠ "" ∧ (parse s).isSome = true := by
  cases d1 with
  | none => simp [compareDates] at h
  | some s1 =>
    cases d2 with
    | none => simp [compareDates] at h
    | some s2 =>
      refine ⟨s1, rfl, ?_, ?_⟩
      · intro he
        simp [compareDates, he] at h
      · by_cases he : s1 = "" ∨ s2 = ""
        · simp [compareDates, he] at h
        · cases hp : parse s1 with
          | none => simp [compareDates, he, hp] at h
          | some t1 => rfl

/-- C10: when a deadline-after or deadline-before filter is set, the
client-side filtering of `handleSearch` keeps exactly the opportunities
matching all active filters conjunctively, and every kept opportunity
has a deadline that is present, non-empty and parseable — opportunities
with a missing or unparseable deadline are excluded, because
`compareDates` returns false whenever either argument is absent or
invalid. -/
theorem c10_deadline_filter_excludes_invalid (parse : String → Option Int)
    (f : SearchFilters) (l : List Opportunity)
    (h : f.deadlineFilter ≠ "" ∨ f.deadlineBeforeFilter ≠ "") :
    applySearchFilters parse f l = l.filter (matchesFilters parse f) ∧
    (∀ o, o ∈ applySearchFilters parse f l ↔
      o ∈ l ∧ matchesFilters parse f o = true) ∧
    (∀ o ∈ applySearchFilters parse f l,
      ∃ s, o.deadline = some s ∧ s ≠ "" ∧ (parse s).isSome = true) := by
  have hact : anyFilterActive f = true := by
    rcases h with h | h <;> simp [anyFilterActive, h]
  have h1 : applySearchFilters parse f l = l.filter (matchesFilters parse f) := by
    unfold applySearchFilters
    rw [if_pos hact]
  refine ⟨h1, ?_, ?_⟩
  · intro o
    rw [h1]
    exact List.mem_filter
  · intro o ho
    rw [h1] at ho
    have hm := (List.mem_filter.mp ho).2
    unfold matchesFilters at hm
    simp only [Bool.and_eq_true] at hm
    have hdl := hm.2
    rcases h with h | h
    · have hcmp : compareDates parse o.deadline (some f.deadlineFilter) .ge = true := by
        have := hdl.1
        simp only [Bool.or_eq_true, decide_eq_true_eq] at this
        rcases this with hc | hc
        · exact absurd hc h
        · exact hc
      exact compareDates_valid parse _ _ _ hcmp
    · have hcmp : compareDates parse o.deadline (some f.deadlineBeforeFilter) .le = true := by
        have := hdl.2
        simp only [Bool.or_eq_true, decide_eq_true_eq] at this
        rcases this with hc | hc
        · exact absurd hc h
        · exact hc
      exact compareDates_valid parse _ _ _ hcmp

/-- Concrete date parser for the C10 witness. -/
def c10Parse : String → Option Int := fun s =>
  if s = "2025-06-01" then some 20250601
  else if s = "2025-07-01" then some 20250701
  else none

/-- Opportunity with a parseable deadline for the C10 witness. -/
def c10OppGood : Opportunity :=
  ⟨none, none, none, none, none, some "2025-07-01", none, none, [], none, none⟩

/-- Filters with only the deadline-after filter set. -/
def c10Filters : SearchFilters := ⟨"", [], [], "2025-06-01", ""⟩

/-- C10 witness: with the deadline-after filter set to 2025-06-01, an
opportunity with deadline 2025-07-01 is kept and one with no deadline is
excluded. -/
theorem c10_deadline_filter_excludes_invalid_witness :
    applySearchFilters c10Parse c10Filters [c10OppGood, emptyOpp] = [c10OppGood] :=
  ((c10_deadline_filter_excludes_invalid c10Parse c10Filters [c10OppGood, emptyOpp]
    (Or.inl (by decide))).1).trans (by decide)
